import Mathlib

/-!
Shallow embedding of the OpenWebClipper template rendering engine:
`TemplateEngine` (src/popup/index.ts), `FilterProcessor` (src/popup/index.ts,
filters module) and `VariableProcessor` (src/core/template/variables.ts).

Modelling conventions:
* JavaScript runtime values flowing through the engine are modelled by the
  closed sum type `Value` (numbers are modelled as integers; none of the
  verified properties involve non-integer numerics).
* Strings are processed as `List Char`; the public API wraps them back into
  `String`.  JavaScript string operations (`trim`, `split`, `slice`,
  `startsWith`, ...) are re-implemented on `List Char` following their
  ECMAScript behaviour on ASCII input (full Unicode case mapping and
  whitespace classes are out of scope; the verified properties use ASCII).
* A JavaScript exception escaping `render` is modelled by `Except`: the
  engine can throw a `TypeError` when a placeholder body parses to an empty
  segment list (the code reads `parts[0]`, obtaining `undefined`, and then
  calls `undefined.startsWith`), and a `SyntaxError` when the `replace`
  filter hands an invalid pattern to `new RegExp`.  All other code paths are
  total.
* `new RegExp(p, "g")` and the subsequent global replacement are modelled by
  a small ECMAScript-regex engine (`regexCompile` / `regexReplaceAll`)
  covering literals, escapes, classes, groups, alternation, quantifiers and
  anchors; numbered capture references in replacement strings are not
  modelled (no verified property uses them).
* Side effects that do not influence the returned value (the `console.warn`
  on an unknown filter name) are not modelled.
-/

set_option maxRecDepth 10000

namespace OWC

/-- The JavaScript values the engine manipulates (see §9 of the design
notes: string, number, boolean, null plus sequences and string-keyed
mappings; `vundefined` models `undefined`). -/
inductive Value where
  | vundefined
  | vnull
  | vbool (b : Bool)
  | vnum (n : Int)
  | vstr (s : String)
  | varr (xs : List Value)
  | vobj (fields : List (String × Value))
  deriving Repr

/-- JavaScript truthiness: `undefined`, `null`, `false`, `0` and `""` are
falsy, everything else (objects and arrays included) is truthy. -/
def jsTruthy : Value → Bool
  | .vundefined => false
  | .vnull => false
  | .vbool b => b
  | .vnum n => decide (n ≠ 0)
  | .vstr s => decide (s ≠ "")
  | .varr _ => true
  | .vobj _ => true

/-- Left curly brace character (written via its code point). -/
def lbrace : Char := Char.ofNat 123

/-- Right curly brace character (written via its code point). -/
def rbrace : Char := Char.ofNat 125

/-- Whitespace characters recognised by JavaScript `trim` (ASCII part). -/
def jsIsWs (c : Char) : Bool :=
  c = ' ' ∨ c = '\t' ∨ c = '\n' ∨ c = '\r' ∨ c = Char.ofNat 11 ∨ c = Char.ofNat 12

/-- JavaScript `String.prototype.trim` on a character list. -/
def jsTrim (l : List Char) : List Char :=
  ((l.dropWhile jsIsWs).reverse.dropWhile jsIsWs).reverse

/-- Whether `p` is a prefix of `l` (JavaScript `startsWith`). -/
def startsWithL (l pat : List Char) : Bool :=
  match pat with
  | [] => true
  | p :: ps =>
    match l with
    | [] => false
    | c :: cs => c = p && startsWithL cs ps
termination_by structural pat

/-- Whether `p` is a suffix of `l` (JavaScript `endsWith`). -/
def endsWithL (l p : List Char) : Bool :=
  startsWithL l.reverse p.reverse

/-- JavaScript `indexOf` for a single character: index of the first
occurrence, or `none`. -/
def indexOfCh : List Char → Char → Option Nat
  | [], _ => none
  | c :: cs, d =>
    if c = d then some 0
    else (indexOfCh cs d).map (· + 1)

/-- JavaScript `String.prototype.split` on a single-character separator. -/
def splitOnCh (sep : Char) : List Char → List (List Char)
  | [] => [[]]
  | c :: cs =>
    let rest := splitOnCh sep cs
    if c = sep then [] :: rest
    else
      match rest with
      | [] => [[c]]
      | r :: rs => (c :: r) :: rs

/-- Worker for `splitOnStr`: scans for the (non-empty) separator
`s :: ss`, accumulating the current piece reversed.  Fuel-based
structural recursion (each step consumes at least one character, so
`length + 1` fuel never runs out). -/
def splitOnStrGo (s : Char) (ss : List Char) : Nat → List Char → List Char → List (List Char)
  | _, [], acc => [acc.reverse]
  | 0, l, acc => [acc.reverse ++ l]
  | fuel + 1, c :: cs, acc =>
    if startsWithL (c :: cs) (s :: ss) then
      acc.reverse :: splitOnStrGo s ss fuel (cs.drop ss.length) []
    else
      splitOnStrGo s ss fuel cs (c :: acc)

/-- JavaScript `String.prototype.split` on a multi-character separator
(used by the `split` filter).  An empty separator splits into single
characters. -/
def splitOnStr (l sep : List Char) : List (List Char) :=
  match sep with
  | [] => l.map fun c => [c]
  | s :: ss => splitOnStrGo s ss (l.length + 1) l []

/-- ASCII lower-casing of a character list (JavaScript `toLowerCase` on
ASCII input). -/
def toLowerL (l : List Char) : List Char := l.map Char.toLower

/-- ASCII upper-casing of a character list (JavaScript `toUpperCase` on
ASCII input). -/
def toUpperL (l : List Char) : List Char := l.map Char.toUpper

/-- Clamp-and-resolve a JavaScript `slice` index against a length:
negative indices count from the end. -/
def jsSliceIndex (len : Nat) (i : Int) : Nat :=
  if i < 0 then (len : Int) + i |>.toNat.min len
  else i.toNat.min len

/-- JavaScript `String.prototype.slice` / `Array.prototype.slice` index
semantics on a list. -/
def jsSlice (l : List Char) (start : Int) (stop : Option Int) : List Char :=
  let s := jsSliceIndex l.length start
  let e := match stop with
    | none => l.length
    | some i => jsSliceIndex l.length i
  (l.take e).drop s

/-- JavaScript `Number(string)` restricted to optionally-signed decimal
integers: other inputs give `none`, modelling `NaN`. -/
def jsToNumber (l : List Char) : Option Int :=
  match jsTrim l with
  | [] => some 0
  | '-' :: ds => if ds ≠ [] ∧ ds.all Char.isDigit then some (-(digitsVal ds)) else none
  | '+' :: ds => if ds ≠ [] ∧ ds.all Char.isDigit then some (digitsVal ds) else none
  | ds => if ds.all Char.isDigit then some (digitsVal ds) else none
where
  digitsVal (ds : List Char) : Int :=
    ds.foldl (fun acc c => acc * 10 + (c.toNat - '0'.toNat : Int)) 0

/-- Interleave a separator between the pieces (the core of
`Array.prototype.join`). -/
def joinWith (sep : List Char) : List (List Char) → List Char
  | [] => []
  | [x] => x
  | x :: y :: rest => x ++ sep ++ joinWith sep (y :: rest)

mutual
/-- JavaScript `String(value)` conversion: arrays are joined with `","`
(with `null`/`undefined` elements becoming empty), plain objects become
`"[object Object]"`. -/
def jsToString : Value → List Char
  | .vundefined => "undefined".data
  | .vnull => "null".data
  | .vbool b => if b then "true".data else "false".data
  | .vnum n => (toString n).data
  | .vstr s => s.data
  | .varr xs => joinWith ",".data (jsElems xs)
  | .vobj _ => "[object Object]".data

/-- Conversion of array elements for `Array.prototype.join`: `null` and
`undefined` become the empty string, other elements use `String(el)`. -/
def jsElems : List Value → List (List Char)
  | [] => []
  | .vundefined :: vs => [] :: jsElems vs
  | .vnull :: vs => [] :: jsElems vs
  | v :: vs => jsToString v :: jsElems vs
end

/-- Canonical array-index parse: `"0"`, `"1"`, ... (JavaScript indexed
access `arr["01"]` does not hit index 1, hence the no-leading-zero rule). -/
def parseIndex : List Char → Option Nat
  | [] => none
  | ['0'] => some 0
  | '0' :: _ :: _ => none
  | ds => if ds.all Char.isDigit then
      some (ds.foldl (fun acc c => acc * 10 + (c.toNat - '0'.toNat)) 0)
    else none

/-- JavaScript property access `v[key]`: `undefined` when absent.  Objects
look up their own properties; arrays and strings expose `length` and
indexed elements; primitives (numbers, booleans, `null`, `undefined`) have
no own string-keyed data properties in the engine's usage (the engine
guards `null`/`undefined` before any access, so the boxing of numbers and
booleans never yields a value here). -/
def getProp (v : Value) (key : String) : Value :=
  match v with
  | .vobj fields => (fields.lookup key).getD .vundefined
  | .varr xs =>
    if key = "length" then .vnum xs.length
    else match parseIndex key.data with
      | some i => (xs.get? i).getD .vundefined
      | none => .vundefined
  | .vstr s =>
    if key = "length" then .vnum s.length
    else match parseIndex key.data with
      | some i => match s.data.get? i with
        | some c => .vstr (String.mk [c])
        | none => .vundefined
      | none => .vundefined
  | _ => .vundefined

/-- Escape one character for a JSON string literal
(`JSON.stringify` quoting). -/
def jsonEscapeChar (c : Char) : List Char :=
  if c = '"' then ['\\', '"']
  else if c = '\\' then ['\\', '\\']
  else if c = '\n' then ['\\', 'n']
  else if c = '\t' then ['\\', 't']
  else if c = '\r' then ['\\', 'r']
  else if c = Char.ofNat 8 then ['\\', 'b']
  else if c = Char.ofNat 12 then ['\\', 'f']
  else if c.toNat < 32 then
    '\\' :: 'u' :: "00".data ++ [hexDigit (c.toNat / 16), hexDigit (c.toNat % 16)]
  else [c]
where
  hexDigit (n : Nat) : Char :=
    if n < 10 then Char.ofNat ('0'.toNat + n) else Char.ofNat ('a'.toNat + n - 10)

/-- Quote a string as a JSON string literal. -/
def jsonQuote (s : List Char) : List Char :=
  '"' :: (s.flatMap jsonEscapeChar) ++ ['"']

/-- Indentation used by `JSON.stringify(v, null, 2)` at nesting level
`lvl`. -/
def jsonIndent (lvl : Nat) : List Char := List.replicate (2 * lvl) ' '

/-- Assemble a JSON array/object body from its serialised items, with the
layout `JSON.stringify` uses (`[]`/`\x7b\x7d` when empty; newline-plus-indent
layout when a 2-space indent is requested). -/
def wrapList (pretty : Bool) (lvl : Nat) (opener closer : Char) :
    List (List Char) → List Char
  | [] => [opener, closer]
  | items@(_ :: _) =>
    if pretty then
      opener :: '\n' :: joinWith (',' :: '\n' :: [])
          (items.map fun it => jsonIndent (lvl + 1) ++ it)
        ++ '\n' :: jsonIndent lvl ++ [closer]
    else
      opener :: joinWith [','] items ++ [closer]

mutual
/-- Model of `JSON.stringify` with an optional 2-space indent (`pretty`):
`none` models the `undefined` result for an `undefined` top value; inside
arrays `undefined` serialises as `null` and inside objects the property is
skipped, as in ECMAScript. -/
def jsonStringify (pretty : Bool) (lvl : Nat) : Value → Option (List Char)
  | .vundefined => none
  | .vnull => some "null".data
  | .vbool b => some (if b then "true".data else "false".data)
  | .vnum n => some (toString n).data
  | .vstr s => some (jsonQuote s.data)
  | .varr xs =>
    let items := jsonArrayItems pretty (lvl + 1) xs
    some (wrapList pretty lvl '[' ']' items)
  | .vobj fields =>
    let items := jsonObjectItems pretty (lvl + 1) fields
    some (wrapList pretty lvl lbrace rbrace items)

/-- Serialised array elements (an `undefined` element becomes `null`). -/
def jsonArrayItems (pretty : Bool) (lvl : Nat) : List Value → List (List Char)
  | [] => []
  | v :: vs =>
    ((jsonStringify pretty lvl v).getD "null".data) :: jsonArrayItems pretty lvl vs

/-- Serialised object members (properties with `undefined` values are
skipped). -/
def jsonObjectItems (pretty : Bool) (lvl : Nat) : List (String × Value) → List (List Char)
  | [] => []
  | (k, v) :: fs =>
    match jsonStringify pretty lvl v with
    | none => jsonObjectItems pretty lvl fs
    | some sv =>
      (jsonQuote k.data ++ (if pretty then ':' :: ' ' :: sv else ':' :: sv))
        :: jsonObjectItems pretty lvl fs
end

/-- JSON whitespace accepted by `JSON.parse`. -/
def jsonIsWs (c : Char) : Bool :=
  c = ' ' ∨ c = '\t' ∨ c = '\n' ∨ c = '\r'

/-- Parse a JSON string body after the opening quote; returns the decoded
characters and the rest after the closing quote. -/
def jsonParseStr : Nat → List Char → Option (List Char × List Char)
  | 0, _ => none
  | _ + 1, [] => none
  | fuel + 1, c :: cs =>
    if c = '"' then some ([], cs)
    else if c = '\\' then
      match cs with
      | [] => none
      | e :: cs' =>
        let dec : Option Char :=
          if e = '"' then some '"'
          else if e = '\\' then some '\\'
          else if e = '/' then some '/'
          else if e = 'b' then some (Char.ofNat 8)
          else if e = 'f' then some (Char.ofNat 12)
          else if e = 'n' then some '\n'
          else if e = 'r' then some '\r'
          else if e = 't' then some '\t'
          else none
        match dec with
        | none => none
        | some d =>
          match jsonParseStr fuel cs' with
          | none => none
          | some (body, rest) => some (d :: body, rest)
    else
      match jsonParseStr fuel cs with
      | none => none
      | some (body, rest) => some (c :: body, rest)

mutual
/-- Recursive-descent model of `JSON.parse` (numbers restricted to
optionally-signed decimal integers; fractions/exponents make the parse
fail, which the `parse_json` filter turns into "return the value
unchanged").  Unicode `\u` escapes are not modelled. -/
def jsonParseVal : Nat → List Char → Option (Value × List Char)
  | 0, _ => none
  | fuel + 1, l =>
    match l.dropWhile jsonIsWs with
    | [] => none
    | c :: cs =>
      if c = '"' then
        match jsonParseStr (fuel + 1) cs with
        | none => none
        | some (body, rest) => some (.vstr (String.mk body), rest)
      else if c = '[' then
        match (cs.dropWhile jsonIsWs) with
        | ']' :: rest => some (.varr [], rest)
        | _ =>
          match jsonParseArr fuel cs with
          | none => none
          | some (xs, rest) => some (.varr xs, rest)
      else if c = lbrace then
        match (cs.dropWhile jsonIsWs) with
        | d :: rest =>
          if d = rbrace then some (.vobj [], rest)
          else
            match jsonParseObj fuel cs with
            | none => none
            | some (fs, rest') => some (.vobj fs, rest')
        | [] => none
      else if startsWithL (c :: cs) "true".data then
        some (.vbool true, (c :: cs).drop 4)
      else if startsWithL (c :: cs) "false".data then
        some (.vbool false, (c :: cs).drop 5)
      else if startsWithL (c :: cs) "null".data then
        some (.vnull, (c :: cs).drop 4)
      else if c = '-' then
        match cs.span Char.isDigit with
        | ([], _) => none
        | (ds@(_ :: _), rest) =>
          some (.vnum (-(ds.foldl (fun acc d => acc * 10 + (d.toNat - '0'.toNat : Int)) 0)), rest)
      else if c.isDigit then
        match (c :: cs).span Char.isDigit with
        | (ds, rest) =>
          some (.vnum (ds.foldl (fun acc d => acc * 10 + (d.toNat - '0'.toNat : Int)) 0), rest)
      else none

/-- Comma-separated JSON array elements up to the closing bracket. -/
def jsonParseArr : Nat → List Char → Option (List Value × List Char)
  | 0, _ => none
  | fuel + 1, l =>
    match jsonParseVal fuel l with
    | none => none
    | some (v, rest) =>
      match rest.dropWhile jsonIsWs with
      | ']' :: rest' => some ([v], rest')
      | ',' :: rest' =>
        match jsonParseArr fuel rest' with
        | none => none
        | some (vs, rest'') => some (v :: vs, rest'')
      | _ => none

/-- Comma-separated JSON object members up to the closing brace. -/
def jsonParseObj : Nat → List Char → Option (List (String × Value) × List Char)
  | 0, _ => none
  | fuel + 1, l =>
    match l.dropWhile jsonIsWs with
    | '"' :: cs =>
      match jsonParseStr (fuel + 1) cs with
      | none => none
      | some (key, rest) =>
        match rest.dropWhile jsonIsWs with
        | ':' :: rest' =>
          match jsonParseVal fuel rest' with
          | none => none
          | some (v, rest'') =>
            match rest''.dropWhile jsonIsWs with
            | c :: rest''' =>
              if c = rbrace then some ([(String.mk key, v)], rest''')
              else if c = ',' then
                match jsonParseObj fuel rest''' with
                | none => none
                | some (fs, r) => some ((String.mk key, v) :: fs, r)
              else none
            | [] => none
        | _ => none
    | _ => none
end

/-- Model of `JSON.parse(s)`: the whole input (modulo trailing whitespace)
must parse. -/
def jsonParse (s : List Char) : Option Value :=
  match jsonParseVal (s.length + 1) s with
  | none => none
  | some (v, rest) => if rest.dropWhile jsonIsWs = [] then some v else none

/-! Regular-expression engine

The `replace` filter executes `String(value).replace(new RegExp(search,
"g"), replace)`, so the dynamic pattern must be compiled; an invalid
pattern makes `new RegExp` throw a `SyntaxError` that escapes `render`.
`regexCompile` is a recursive-descent parser for the ECMAScript pattern
grammar (with Annex B leniency for stray braces and brackets) over
literals, escapes, character classes, groups, alternation, quantifiers
(greedy and lazy) and the `^`, `$`, `\b`, `\B` assertions.  Lookaround,
named groups, octal escapes, backreferences and `\u`-surrogate details are
not modelled: the model rejects patterns using the first two and reads the
rest as literal characters.  Matching is leftmost, with ECMAScript
backtracking priority. -/

/-- A single entry of a character class `[...]`. -/
inductive ClassItem where
  | single (c : Char)
  | range (lo hi : Char)
  | digit
  | ndigit
  | word
  | nword
  | space
  | nspace
  deriving Repr

/-- Abstract syntax of compiled patterns.  `rstar lazy r` is `r*` (lazy
when the flag is set); other quantifiers are desugared onto `rcat`,
`ralt`, `rempty` and `rstar`. -/
inductive Rx where
  | rempty
  | rchar (c : Char)
  | rany
  | rcls (neg : Bool) (items : List ClassItem)
  | rstart
  | rend
  | rwordb (neg : Bool)
  | rcat (a b : Rx)
  | ralt (a b : Rx)
  | rstar (lazy : Bool) (a : Rx)
  | rlinestart
  deriving Repr

/-- Characters matched by `\d`. -/
def isRxDigit (c : Char) : Bool := '0' ≤ c ∧ c ≤ '9'

/-- Characters matched by `\w`. -/
def isRxWord (c : Char) : Bool :=
  ('a' ≤ c ∧ c ≤ 'z') ∨ ('A' ≤ c ∧ c ≤ 'Z') ∨ ('0' ≤ c ∧ c ≤ '9') ∨ c = '_'

/-- Characters matched by `\s` (ASCII part of the ECMAScript class). -/
def isRxSpace (c : Char) : Bool :=
  c = ' ' ∨ c = '\t' ∨ c = '\n' ∨ c = '\r' ∨ c = Char.ofNat 11 ∨ c = Char.ofNat 12

/-- Whether a class entry matches a character. -/
def classItemMatch (c : Char) : ClassItem → Bool
  | .single d => c = d
  | .range lo hi => lo ≤ c ∧ c ≤ hi
  | .digit => isRxDigit c
  | .ndigit => !isRxDigit c
  | .word => isRxWord c
  | .nword => !isRxWord c
  | .space => isRxSpace c
  | .nspace => !isRxSpace c

/-- Whether a (possibly negated) class matches a character. -/
def classMatch (neg : Bool) (items : List ClassItem) (c : Char) : Bool :=
  if neg then !(items.any (classItemMatch c)) else items.any (classItemMatch c)

/-- Decode a pattern escape `\c`: either a class-style escape or a literal
character.  Octal escapes and backreferences are read as literal digits
(none of the verified properties exercises them). -/
def escapeAtom (c : Char) : Rx :=
  if c = 'd' then .rcls false [.digit]
  else if c = 'D' then .rcls false [.ndigit]
  else if c = 'w' then .rcls false [.word]
  else if c = 'W' then .rcls false [.nword]
  else if c = 's' then .rcls false [.space]
  else if c = 'S' then .rcls false [.nspace]
  else if c = 'b' then .rwordb false
  else if c = 'B' then .rwordb true
  else if c = 'n' then .rchar '\n'
  else if c = 'r' then .rchar '\r'
  else if c = 't' then .rchar '\t'
  else if c = 'v' then .rchar (Char.ofNat 11)
  else if c = 'f' then .rchar (Char.ofNat 12)
  else if c = '0' then .rchar (Char.ofNat 0)
  else .rchar c

/-- Decode an escape inside a character class (`\b` is backspace there). -/
def escapeClassItem (c : Char) : ClassItem :=
  if c = 'd' then .digit
  else if c = 'D' then .ndigit
  else if c = 'w' then .word
  else if c = 'W' then .nword
  else if c = 's' then .space
  else if c = 'S' then .nspace
  else if c = 'b' then .single (Char.ofNat 8)
  else if c = 'n' then .single '\n'
  else if c = 'r' then .single '\r'
  else if c = 't' then .single '\t'
  else if c = 'v' then .single (Char.ofNat 11)
  else if c = 'f' then .single (Char.ofNat 12)
  else if c = '0' then .single (Char.ofNat 0)
  else .single c

/-- Read one class element: a literal char (`Sum.inl`) or a class escape
such as `\d` (`Sum.inr`). -/
def classSingleItem : List Char → Option (Sum Char ClassItem × List Char)
  | [] => none
  | '\\' :: [] => none
  | '\\' :: e :: rest =>
    match escapeClassItem e with
    | .single d => some (Sum.inl d, rest)
    | it => some (Sum.inr it, rest)
  | c :: rest => some (Sum.inl c, rest)

/-- Inject a parsed class element into `ClassItem`. -/
def classItemOf : Sum Char ClassItem → ClassItem
  | Sum.inl c => .single c
  | Sum.inr it => it

/-- Parse the items of a character class up to the closing `]`
(`none` on an unterminated class, which is a `SyntaxError`).  Fuel-based
recursion; the compiler supplies ample fuel. -/
def parseClassItems : Nat → List Char → Option (List ClassItem × List Char)
  | 0, _ => none
  | _ + 1, [] => none
  | fuel + 1, c :: cs =>
    if c = ']' then some ([], cs)
    else
      match classSingleItem (c :: cs) with
      | none => none
      | some (lo, rest) =>
        match rest with
        | '-' :: ']' :: rest' =>
          -- a trailing "-" before "]" is a literal dash
          some ([classItemOf lo, .single '-'], rest')
        | '-' :: d :: rest' =>
          match classSingleItem (d :: rest'), lo with
          | some (hi, rest''), Sum.inl lc =>
            match hi with
            | Sum.inl hc =>
              if lc ≤ hc then
                match parseClassItems fuel rest'' with
                | none => none
                | some (items, r) => some (.range lc hc :: items, r)
              else none  -- "range out of order" SyntaxError
            | Sum.inr _ => none  -- e.g. "[a-\d]" SyntaxError outside Annex B
          | some _, Sum.inr _ => none
          | none, _ => none
        | _ =>
          match parseClassItems fuel rest with
          | none => none
          | some (items, r) => some (classItemOf lo :: items, r)

/-- Parse a braced quantifier body after the opening brace: digits, an
optional comma with optional upper bound, then the closing brace.  Returns
`none` when the text is not quantifier-shaped (then Annex B reads the
brace as a literal). -/
def parseBounds (l : List Char) : Option (Nat × Option Nat × List Char) :=
  match l.span Char.isDigit with
  | ([], _) => none
  | (ds@(_ :: _), rest) =>
    let m := ds.foldl (fun acc c => acc * 10 + (c.toNat - '0'.toNat)) 0
    match rest with
    | c :: rest' =>
      if c = rbrace then some (m, some m, rest')
      else if c = ',' then
        match rest' with
        | d :: rest'' =>
          if d = rbrace then some (m, none, rest'')
          else
            match rest'.span Char.isDigit with
            | ([], _) => none
            | (es@(_ :: _), rest₂) =>
              match rest₂ with
              | e :: rest₃ =>
                if e = rbrace then
                  some (m, some (es.foldl (fun acc c => acc * 10 + (c.toNat - '0'.toNat)) 0), rest₃)
                else none
              | [] => none
        | [] => none
      else none
    | [] => none

/-- Concatenation of `n` copies of a pattern. -/
def repeatRx (a : Rx) : Nat → Rx
  | 0 => .rempty
  | n + 1 => .rcat a (repeatRx a n)

/-- Up to `n` further copies of a pattern, greedy or lazy. -/
def optUpTo (lazy : Bool) (a : Rx) : Nat → Rx
  | 0 => .rempty
  | n + 1 =>
    if lazy then .ralt .rempty (.rcat a (optUpTo lazy a n))
    else .ralt (.rcat a (optUpTo lazy a n)) .rempty

/-- Apply a parsed quantifier (one of `*`, `+`, `?`, `\x7bm\x7d`,
`\x7bm,\x7d`, `\x7bm,n\x7d`) to an atom. -/
def applyQuant (a : Rx) (lo : Nat) (hi : Option Nat) (lazy : Bool) : Rx :=
  match hi with
  | none => .rcat (repeatRx a lo) (.rstar lazy a)
  | some n => .rcat (repeatRx a lo) (optUpTo lazy a (n - lo))

/-- Recognise a quantifier at the head of the input.  `none`: no
quantifier there; `some none`: quantifier-shaped but invalid (`\x7b3,2\x7d`);
`some (some (lo, hi, rest))`: a valid quantifier. -/
def quantOf (l : List Char) : Option (Option (Nat × Option Nat × List Char)) :=
  match l with
  | '*' :: rest => some (some (0, none, rest))
  | '+' :: rest => some (some (1, none, rest))
  | '?' :: rest => some (some (0, some 1, rest))
  | c :: rest =>
    if c = lbrace then
      match parseBounds rest with
      | none => none
      | some (lo, hi, rest') =>
        match hi with
        | some n => if n < lo then some none else some (some (lo, some n, rest'))
        | none => some (some (lo, none, rest'))
    else none
  | [] => none

mutual
/-- Alternation level of the pattern grammar: `cat ( | cat)*`. -/
def parseRxAlt : Nat → List Char → Option (Rx × List Char)
  | 0, _ => none
  | fuel + 1, l =>
    match parseRxCat fuel l with
    | none => none
    | some (a, rest) =>
      match rest with
      | '|' :: rest' =>
        match parseRxAlt fuel rest' with
        | none => none
        | some (b, rest'') => some (.ralt a b, rest'')
      | _ => some (a, rest)

/-- Concatenation level: a sequence of quantified terms, ending at `|`,
`)` or the end of the pattern. -/
def parseRxCat : Nat → List Char → Option (Rx × List Char)
  | 0, _ => none
  | fuel + 1, l =>
    match l with
    | [] => some (.rempty, [])
    | '|' :: _ => some (.rempty, l)
    | ')' :: _ => some (.rempty, l)
    | _ =>
      match parseRxTerm fuel l with
      | none => none
      | some (a, rest) =>
        match parseRxCat fuel rest with
        | none => none
        | some (b, rest') => some (.rcat a b, rest')

/-- One atom with an optional quantifier (and optional lazy marker); a
quantifier directly following another quantifier is the "nothing to
repeat" `SyntaxError`. -/
def parseRxTerm : Nat → List Char → Option (Rx × List Char)
  | 0, _ => none
  | fuel + 1, l =>
    match parseRxAtom fuel l with
    | none => none
    | some (a, rest) =>
      match quantOf rest with
      | none => some (a, rest)
      | some qres =>
        match qres with
        | none => none  -- invalid bounds such as a{3,2}
        | some (lo, hi, rest') =>
          let (lazy, rest'') :=
            match rest' with
            | '?' :: r => (true, r)
            | _ => (false, rest')
          match quantOf rest'' with
          | some _ => none  -- double quantifier, "nothing to repeat"
          | none => some (applyQuant a lo hi lazy, rest'')

/-- A single pattern atom. -/
def parseRxAtom : Nat → List Char → Option (Rx × List Char)
  | 0, _ => none
  | fuel + 1, l =>
    match l with
    | [] => none
    | c :: cs =>
      if c = '(' then
        match cs with
        | '?' :: ':' :: cs' => withClose fuel cs'
        | '?' :: _ => none  -- lookaround / named groups not modelled
        | _ => withClose fuel cs
      else if c = ')' then none
      else if c = '[' then
        match cs with
        | '^' :: cs' =>
          match parseClassItems (cs'.length + 1) cs' with
          | none => none
          | some (items, rest) => some (.rcls true items, rest)
        | _ =>
          match parseClassItems (cs.length + 1) cs with
          | none => none
          | some (items, rest) => some (.rcls false items, rest)
      else if c = '\\' then
        match cs with
        | [] => none  -- trailing backslash SyntaxError
        | e :: cs' => some (escapeAtom e, cs')
      else if c = '.' then some (.rany, cs)
      else if c = '^' then some (.rstart, cs)
      else if c = '$' then some (.rend, cs)
      else if c = '*' ∨ c = '+' ∨ c = '?' then none  -- nothing to repeat
      else some (.rchar c, cs)

/-- Parse a parenthesised group body and its closing parenthesis. -/
def withClose : Nat → List Char → Option (Rx × List Char)
  | 0, _ => none
  | fuel + 1, l =>
    match parseRxAlt fuel l with
    | none => none
    | some (a, rest) =>
      match rest with
      | ')' :: rest' => some (a, rest')
      | _ => none  -- unterminated group SyntaxError
end

/-- Model of `new RegExp(pattern)`: `none` is the `SyntaxError` case. -/
def regexCompile (pattern : String) : Option Rx :=
  match parseRxAlt (4 * pattern.length + 8) pattern.data with
  | some (r, []) => some r
  | _ => none  -- leftover input (for example an unmatched closing parenthesis)

/-- Structural size of a pattern, used to provision matcher fuel. -/
def rxSize : Rx → Nat
  | .rcat a b => rxSize a + rxSize b + 1
  | .ralt a b => rxSize a + rxSize b + 1
  | .rstar _ a => rxSize a + 1
  | _ => 1

/-- Backtracking matcher: the ECMAScript-priority-ordered list of end
positions of matches of `r` starting at position `i` of `full`.  The head
of the list is the end position the ECMAScript semantics selects.  Fuel
bounds the recursion; callers provision enough for the search to
complete (a repetition that consumes nothing is cut off, as in
ECMAScript's empty-match rule for quantifiers). -/
def matchRx (full : List Char) : Nat → Rx → Nat → List Nat
  | 0, _, _ => []
  | fuel + 1, r, i =>
    match r with
    | .rempty => [i]
    | .rchar c =>
      match full.get? i with
      | some d => if d = c then [i + 1] else []
      | none => []
    | .rany =>
      match full.get? i with
      | some d => if d = '\n' ∨ d = '\r' then [] else [i + 1]
      | none => []
    | .rcls neg items =>
      match full.get? i with
      | some d => if classMatch neg items d then [i + 1] else []
      | none => []
    | .rstart => if i = 0 then [i] else []
    | .rlinestart =>
      if i = 0 then [i]
      else match full.get? (i - 1) with
        | some d => if d = '\n' ∨ d = '\r' then [i] else []
        | none => []
    | .rend => if i = full.length then [i] else []
    | .rwordb neg =>
      let before :=
        match i with
        | 0 => false
        | j + 1 => match full.get? j with
          | some d => isRxWord d
          | none => false
      let after :=
        match full.get? i with
        | some d => isRxWord d
        | none => false
      if (before != after) != neg then [i] else []
    | .rcat a b => (matchRx full fuel a i).flatMap fun j => matchRx full fuel b j
    | .ralt a b => matchRx full fuel a i ++ matchRx full fuel b i
    | .rstar lazy a =>
      let cont := (matchRx full fuel a i).flatMap fun j =>
        if j ≤ i then [] else matchRx full fuel (.rstar lazy a) j
      if lazy then i :: cont else cont ++ [i]

/-- End position of the match of `r` at position `i`, when there is one. -/
def matchEndAt (full : List Char) (fuel : Nat) (r : Rx) (i : Nat) : Option Nat :=
  (matchRx full fuel r i).head?

/-- Scan positions `i`, `i+1`, ... for the leftmost match; `steps` bounds
the scan (callers pass at least `full.length + 1 - i`). -/
def findFromGo (full : List Char) (r : Rx) (fuel : Nat) : Nat → Nat → Option (Nat × Nat)
  | 0, _ => none
  | steps + 1, i =>
    match matchEndAt full fuel r i with
    | some j => some (i, j)
    | none =>
      if i < full.length then findFromGo full r fuel steps (i + 1)
      else none

/-- Expand a string replacement: `$$` is a literal dollar, `$&` is the
matched text; other text is copied (`$`-number capture references and
`$`-backquote forms are not modelled — no verified property uses them). -/
def expandRepl (matched : List Char) : List Char → List Char
  | [] => []
  | '$' :: '$' :: rest => '$' :: expandRepl matched rest
  | '$' :: '&' :: rest => matched ++ expandRepl matched rest
  | c :: rest => c :: expandRepl matched rest

/-- Characters of `l` from position `a` (inclusive) to `b` (exclusive). -/
def sliceBetween (l : List Char) (a b : Nat) : List Char :=
  (l.take b).drop a

/-- One pass of `String.prototype.replace` with a global regex, starting
the search at position `i`: find the leftmost match, emit the text before
it, the replacement computed from the matched text by `f`, and continue
after the match (advancing one extra character after an empty match, as
the `lastIndex` rule does).  `f` models either a string replacement after
`$`-expansion or a replacer function. -/
def regexReplaceFnGo (full : List Char) (r : Rx) (f : List Char → List Char) (mfuel : Nat) :
    Nat → Nat → List Char
  | 0, i => full.drop i
  | steps + 1, i =>
    match findFromGo full r mfuel (full.length + 1 - i) i with
    | none => full.drop i
    | some (ms, me) =>
      sliceBetween full i ms ++ f (sliceBetween full ms me) ++
        (if ms < me then
          regexReplaceFnGo full r f mfuel steps me
        else
          match full.get? me with
          | some c => c :: regexReplaceFnGo full r f mfuel steps (me + 1)
          | none => [])

/-- Model of `str.replace(regex-with-g-flag, f)` for a compiled pattern
and a replacer on the matched text. -/
def regexReplaceFn (r : Rx) (s : List Char) (f : List Char → List Char) : List Char :=
  regexReplaceFnGo s r f ((rxSize r + 2) * (s.length + 2)) (s.length + 2) 0

/-- Model of `String(value).replace(new RegExp(pattern, "g"), repl)` for a
compiled pattern and a replacement string. -/
def regexReplaceAll (r : Rx) (s repl : List Char) : List Char :=
  regexReplaceFn r s (fun m => expandRepl m repl)

/-! Filter processor

`FilterProcessor` (popup bundle) owns a `Map` from filter name to
function, seeded by `registerBuiltinFilters`.  The map is defunctionalised
here: `FilterId` enumerates the built-ins, `filterTable` is the
name-to-filter association in registration order, and `runFilter`
interprets an id exactly as the corresponding source closure.  The
`register` method for custom filters is not exercised by any verified
property; the engine under verification always runs with the built-in
table. -/

/-- The errors with which `render` can complete abruptly: the `TypeError`
from reading `parts[0]` of an empty segment list (and then calling
`undefined.startsWith`), and the `SyntaxError` thrown by `new RegExp`
inside the `replace` filter. -/
inductive RenderError where
  | typeError
  | regexSyntax (pattern : String)
  deriving Repr, DecidableEq

/-- Enumeration of the built-in filters, in registration order. -/
inductive FilterId where
  | fdate | flower | fupper | fcapitalize | ftitle
  | ftrim | freplace | fslice
  | fcamel | fpascal | fsnake | fkebab
  | fsafeName
  | fblockquote | fwikilink | flink
  | fjoin | fsplit | ffirst | flast | funique
  | flist | flength | fdefault
  | fjson | fparseJson
  | fstripHtml | fstripMd
  deriving Repr, DecidableEq

/-- Fields of a parsed timestamp (the model works in a fixed zero-offset
zone: the source's `getFullYear`/... read machine-local fields, which a
pure model cannot represent; no verified property involves dates). -/
structure DateFields where
  year : Nat
  month : Nat
  day : Nat
  hour : Nat
  minute : Nat
  second : Nat
  deriving Repr, DecidableEq

/-- Read exactly `n` digits as a number. -/
def readDigits (n : Nat) (l : List Char) : Option (Nat × List Char) :=
  let ds := l.take n
  if ds.length = n ∧ ds.all Char.isDigit then
    some (ds.foldl (fun acc c => acc * 10 + (c.toNat - '0'.toNat)) 0, l.drop n)
  else none

/-- Model of `new Date(string)` restricted to ISO-like
`YYYY-MM-DD` / `YYYY-MM-DDTHH:MM:SS` (optionally `Z`-suffixed) input;
everything else is an invalid date (`none`, the source's `NaN` check). -/
def jsParseDate (l : List Char) : Option DateFields :=
  match readDigits 4 l with
  | none => none
  | some (y, r1) =>
    match r1 with
    | '-' :: r2 =>
      match readDigits 2 r2 with
      | none => none
      | some (mo, r3) =>
        match r3 with
        | '-' :: r4 =>
          match readDigits 2 r4 with
          | none => none
          | some (d, r5) =>
            if ¬(1 ≤ mo ∧ mo ≤ 12 ∧ 1 ≤ d ∧ d ≤ 31) then none
            else match r5 with
            | [] => some ⟨y, mo, d, 0, 0, 0⟩
            | 'T' :: r6 =>
              match readDigits 2 r6 with
              | none => none
              | some (h, r7) =>
                match r7 with
                | ':' :: r8 =>
                  match readDigits 2 r8 with
                  | none => none
                  | some (mi, r9) =>
                    match r9 with
                    | ':' :: r10 =>
                      match readDigits 2 r10 with
                      | none => none
                      | some (sec, r11) =>
                        if h ≤ 23 ∧ mi ≤ 59 ∧ sec ≤ 59 ∧ (r11 = [] ∨ r11 = ['Z']) then
                          some ⟨y, mo, d, h, mi, sec⟩
                        else none
                    | _ => none
                | _ => none
            | _ => none
        | _ => none
    | _ => none

/-- Replace the first occurrence of `pat` (JavaScript
`str.replace(stringPattern, repl)`; the replacement strings used by the
`date` filter contain no `$`, so no `$`-expansion is modelled). -/
def replaceFirstStr (pat repl : List Char) : List Char → List Char
  | [] => if pat = [] then repl else []
  | c :: cs =>
    if startsWithL (c :: cs) pat then repl ++ (c :: cs).drop pat.length
    else c :: replaceFirstStr pat repl cs

/-- Zero-padded two-digit field (`String(n).padStart(2, "0")`). -/
def pad2 (n : Nat) : List Char :=
  if n < 10 then '0' :: (toString n).data else (toString n).data

/-- Format token substitution of the `date` filter, in source order:
`YYYY`, `MM`, `DD`, `HH`, `mm`, `ss`, each replacing the first
occurrence. -/
def dateFmt (fmt : List Char) (d : DateFields) : List Char :=
  replaceFirstStr "ss".data (pad2 d.second)
    (replaceFirstStr "mm".data (pad2 d.minute)
      (replaceFirstStr "HH".data (pad2 d.hour)
        (replaceFirstStr "DD".data (pad2 d.day)
          (replaceFirstStr "MM".data (pad2 d.month)
            (replaceFirstStr "YYYY".data (toString d.year).data fmt)))))

/-- One-or-more repetitions of a pattern. -/
def plusRx (a : Rx) : Rx := .rcat a (.rstar false a)

/-- The class `[-_\s]` used by the `camel`/`pascal` filters. -/
def sepClassCP : List ClassItem := [.single '-', .single '_', .space]

/-- Whether a character belongs to `[-_\s]`. -/
def isSepCP (c : Char) : Bool := c = '-' ∨ c = '_' ∨ isRxSpace c

/-- The common first pass of `camel` and `pascal`:
`replace(/[-_\s]+(.)?/g, (_, c) => c ? c.toUpperCase() : "")`. -/
def camelCore (l : List Char) : List Char :=
  regexReplaceFn
    (.rcat (plusRx (.rcls false sepClassCP)) (.ralt .rany .rempty)) l
    (fun m =>
      match m.dropWhile isSepCP with
      | [c] => [c.toUpper]
      | _ => [])

/-- Second pass of `camel`: `replace(/^./, c => c.toLowerCase())`. -/
def lowerFirstRx (l : List Char) : List Char :=
  regexReplaceFn (.rcat .rstart .rany) l toLowerL

/-- Second pass of `pascal`: `replace(/^./, c => c.toUpperCase())`. -/
def upperFirstRx (l : List Char) : List Char :=
  regexReplaceFn (.rcat .rstart .rany) l toUpperL

/-- First pass of `snake`/`kebab`:
`replace(/([a-z])([A-Z])/g, "$1_$2")` (with the given joiner). -/
def caseBreak (joiner : Char) (l : List Char) : List Char :=
  regexReplaceFn
    (.rcat (.rcls false [.range 'a' 'z']) (.rcls false [.range 'A' 'Z'])) l
    (fun m =>
      match m with
      | [a, b] => [a, joiner, b]
      | other => other)

/-- The `capitalize` filter body:
`str.charAt(0).toUpperCase() + str.slice(1).toLowerCase()`. -/
def capitalizeL : List Char → List Char
  | [] => []
  | c :: cs => Char.toUpper c :: toLowerL cs

/-- The `title` filter body: `replace(/\b\w/g, c => c.toUpperCase())`. -/
def titleL (l : List Char) : List Char :=
  regexReplaceFn (.rcat (.rwordb false) (.rcls false [.word])) l toUpperL

/-- The `safe_name` filter body: strip `<>:"/\|?*`, collapse whitespace
runs to one space, trim. -/
def safeNameL (l : List Char) : List Char :=
  jsTrim
    (regexReplaceFn (plusRx (.rcls false [.space]))
      (regexReplaceFn
        (.rcls false
          [.single '<', .single '>', .single ':', .single '"', .single '/',
            .single '\\', .single '|', .single '?', .single '*']) l
        (fun _ => []))
      (fun _ => [' ']))

/-- The `strip_html` filter body: `replace(/<[^>]*>/g, "")`. -/
def stripHtmlL (l : List Char) : List Char :=
  regexReplaceFn
    (.rcat (.rchar '<') (.rcat (.rstar false (.rcls true [.single '>'])) (.rchar '>'))) l
    (fun _ => [])

/-- Concatenation of literal characters as a pattern. -/
def rxOfLits : List Char → Rx
  | [] => .rempty
  | c :: cs => .rcat (.rchar c) (rxOfLits cs)

/-- Strip a symmetric wrapper: global replace of
`od (body of non-`bad` chars, non-empty) od` by the body (the
`**bold**`, `*em*`, `__bold__`, `_em_` and backtick passes of
`strip_md`). -/
def stripWrapRx (od : List Char) (bad : Char) (l : List Char) : List Char :=
  regexReplaceFn
    (.rcat (rxOfLits od) (.rcat (plusRx (.rcls true [.single bad])) (rxOfLits od))) l
    (fun m => (m.take (m.length - od.length)).drop od.length)

/-- The markdown-link pass of `strip_md`:
`replace(/\[([^\]]+)\]\(([^)]+)\)/g, "$1")` keeps the bracketed text. -/
def stripMdLink (l : List Char) : List Char :=
  regexReplaceFn
    (.rcat (.rchar '[')
      (.rcat (plusRx (.rcls true [.single ']']))
        (.rcat (.rchar ']')
          (.rcat (.rchar '(')
            (.rcat (plusRx (.rcls true [.single ')'])) (.rchar ')')))))) l
    (fun m => (m.drop 1).takeWhile (· ≠ ']'))

/-- A line-anchored stripping pass of `strip_md` (`m`-flag `^`): removes
`marker` plus trailing whitespace at the start of every line. -/
def stripLineRx (marker : Rx) (l : List Char) : List Char :=
  regexReplaceFn
    (.rcat .rlinestart (.rcat marker (.rstar false (.rcls false [.space])))) l
    (fun _ => [])

/-- The `strip_md` filter body: the ten global replacements of the
source, applied in order. -/
def stripMdL (l : List Char) : List Char :=
  let p1 := stripWrapRx ['*', '*'] '*' l
  let p2 := stripWrapRx ['*'] '*' p1
  let p3 := stripWrapRx ['_', '_'] '_' p2
  let p4 := stripWrapRx ['_'] '_' p3
  let p5 := stripMdLink p4
  let p6 := stripWrapRx [Char.ofNat 96] (Char.ofNat 96) p5
  let p7 := stripLineRx (plusRx (.rchar '#')) p6
  let p8 := stripLineRx (.rchar '>') p7
  let p9 := stripLineRx (.rcls false [.single '-', .single '*', .single '+']) p8
  stripLineRx (.rcat (plusRx (.rcls false [.digit])) (.rchar '.')) p9

/-- Deduplication for the `unique` filter: `[...new Set(value)]` keeps
first occurrences under SameValueZero.  Arrays and objects compare by
reference in ECMAScript; in this tree model every array/object literal is
a distinct reference, so only primitives deduplicate. -/
def samePrim : Value → Value → Bool
  | .vundefined, .vundefined => true
  | .vnull, .vnull => true
  | .vbool a, .vbool b => a = b
  | .vnum a, .vnum b => a = b
  | .vstr a, .vstr b => a = b
  | _, _ => false

/-- First-occurrence deduplication against an accumulator of seen
values. -/
def dedupGo (seen : List Value) : List Value → List Value
  | [] => []
  | v :: vs =>
    if seen.any (samePrim v) then dedupGo seen vs
    else v :: dedupGo (v :: seen) vs

/-- Render one element of the `list` filter per the `type` argument. -/
def listItem (ty : String) (index : Nat) (item : Value) : List Char :=
  if ty = "numbered" then (toString (index + 1)).data ++ '.' :: ' ' :: jsToString item
  else if ty = "task" then "- [ ] ".data ++ jsToString item
  else if ty = "numbered-task" then
    (toString (index + 1)).data ++ ". [ ] ".data ++ jsToString item
  else '-' :: ' ' :: jsToString item

/-- Map with the element index (the `value.map((item, index) => ...)`). -/
def mapIdx (ty : String) (i : Nat) : List Value → List (List Char)
  | [] => []
  | v :: vs => listItem ty i v :: mapIdx ty (i + 1) vs

/-- Interpretation of each built-in filter on a value and its (string)
arguments, translated clause-by-clause from `registerBuiltinFilters`.
Only `freplace` can fail: `new RegExp(search, "g")` throws on an invalid
pattern.  The others always return a value. -/
def runFilter (id : FilterId) (v : Value) (args : List String) : Except RenderError Value :=
  match id with
  | .fdate =>
    let fmt := (args.get? 0).getD "YYYY-MM-DD"
    match jsParseDate (jsToString v) with
    | none => .ok v
    | some d => .ok (.vstr (String.mk (dateFmt fmt.data d)))
  | .flower => .ok (.vstr (String.mk (toLowerL (jsToString v))))
  | .fupper => .ok (.vstr (String.mk (toUpperL (jsToString v))))
  | .fcapitalize => .ok (.vstr (String.mk (capitalizeL (jsToString v))))
  | .ftitle => .ok (.vstr (String.mk (titleL (jsToString v))))
  | .ftrim => .ok (.vstr (String.mk (jsTrim (jsToString v))))
  | .freplace =>
    -- new RegExp(undefined, "g") is the empty pattern
    let pattern := (args.get? 0).getD ""
    let repl := (args.get? 1).getD ""
    match regexCompile pattern with
    | none => .error (.regexSyntax pattern)
    | some r => .ok (.vstr (String.mk (regexReplaceAll r (jsToString v) repl.data)))
  | .fslice =>
    let str := jsToString v
    -- Number(undefined) and Number(non-numeric) are NaN; slice coerces NaN to 0
    let start := match args.get? 0 with
      | some a => (jsToNumber a.data).getD 0
      | none => 0
    -- "end ? Number(end) : undefined": an empty-string bound is falsy
    let stop := match args.get? 1 with
      | some e => if e = "" then none else some ((jsToNumber e.data).getD 0)
      | none => none
    .ok (.vstr (String.mk (jsSlice str start stop)))
  | .fcamel => .ok (.vstr (String.mk (lowerFirstRx (camelCore (jsToString v)))))
  | .fpascal => .ok (.vstr (String.mk (upperFirstRx (camelCore (jsToString v)))))
  | .fsnake =>
    .ok (.vstr (String.mk (toLowerL
      (regexReplaceFn (plusRx (.rcls false [.single '-', .space]))
        (caseBreak '_' (jsToString v)) (fun _ => ['_'])))))
  | .fkebab =>
    .ok (.vstr (String.mk (toLowerL
      (regexReplaceFn (plusRx (.rcls false [.single '_', .space]))
        (caseBreak '-' (jsToString v)) (fun _ => ['-'])))))
  | .fsafeName => .ok (.vstr (String.mk (safeNameL (jsToString v))))
  | .fblockquote =>
    .ok (.vstr (String.mk
      (joinWith ['\n'] ((splitOnCh '\n' (jsToString v)).map (fun ln => '>' :: ' ' :: ln)))))
  | .fwikilink =>
    match v with
    | .varr xs =>
      .ok (.varr (xs.map fun x =>
        .vstr (String.mk ("[[".data ++ jsToString x ++ "]]".data))))
    | _ =>
      match args.get? 0 with
      | some aliasArg =>
        if aliasArg ≠ "" then
          .ok (.vstr (String.mk ("[[".data ++ jsToString v ++ '|' :: aliasArg.data ++ "]]".data)))
        else .ok (.vstr (String.mk ("[[".data ++ jsToString v ++ "]]".data)))
      | none => .ok (.vstr (String.mk ("[[".data ++ jsToString v ++ "]]".data)))
  | .flink =>
    match args.get? 0 with
    | some text =>
      if text ≠ "" then
        .ok (.vstr (String.mk
          ('[' :: text.data ++ ']' :: '(' :: jsToString v ++ [')'])))
      else .ok (.vstr (String.mk
        ('[' :: jsToString v ++ ']' :: '(' :: jsToString v ++ [')'])))
    | none =>
      .ok (.vstr (String.mk
        ('[' :: jsToString v ++ ']' :: '(' :: jsToString v ++ [')'])))
  | .fjoin =>
    match v with
    | .varr xs =>
      let sep := (args.get? 0).getD ", "
      .ok (.vstr (String.mk (joinWith sep.data (jsElems xs))))
    | _ => .ok v
  | .fsplit =>
    let sep := (args.get? 0).getD ","
    .ok (.varr ((splitOnStr (jsToString v) sep.data).map fun p => .vstr (String.mk p)))
  | .ffirst =>
    match v with
    | .varr xs => .ok ((xs.get? 0).getD .vundefined)
    | _ => .ok v
  | .flast =>
    match v with
    | .varr xs => .ok ((xs.get? (xs.length - 1)).getD .vundefined)
    | _ => .ok v
  | .funique =>
    match v with
    | .varr xs => .ok (.varr (dedupGo [] xs))
    | _ => .ok v
  | .flist =>
    match v with
    | .varr xs =>
      let ty := (args.get? 0).getD "bullet"
      .ok (.vstr (String.mk (joinWith ['\n'] (mapIdx ty 0 xs))))
    | _ => .ok v
  | .flength =>
    match v with
    | .varr xs => .ok (.vnum xs.length)
    | .vstr s => .ok (.vnum s.length)
    | .vobj fields => .ok (.vnum fields.length)
    | _ => .ok (.vnum 0)
  | .fdefault =>
    let fallback := (args.get? 0).getD ""
    match v with
    | .vnull => .ok (.vstr fallback)
    | .vundefined => .ok (.vstr fallback)
    | .vstr s => if s = "" then .ok (.vstr fallback) else .ok v
    | _ => .ok v
  | .fjson =>
    match jsonStringify true 0 v with
    | none => .ok .vundefined  -- JSON.stringify(undefined) is undefined
    | some out => .ok (.vstr (String.mk out))
  | .fparseJson =>
    match jsonParse (jsToString v) with
    | none => .ok v  -- the catch clause returns the value unchanged
    | some parsed => .ok parsed
  | .fstripHtml => .ok (.vstr (String.mk (stripHtmlL (jsToString v))))
  | .fstripMd => .ok (.vstr (String.mk (stripMdL (jsToString v))))

/-- The filter registry: name-to-filter associations exactly as
registered by `registerBuiltinFilters`, in registration order. -/
def filterTable : List (String × FilterId) :=
  [("date", .fdate), ("lower", .flower), ("upper", .fupper),
    ("capitalize", .fcapitalize), ("title", .ftitle),
    ("trim", .ftrim), ("replace", .freplace), ("slice", .fslice),
    ("camel", .fcamel), ("pascal", .fpascal), ("snake", .fsnake),
    ("kebab", .fkebab), ("safe_name", .fsafeName),
    ("blockquote", .fblockquote), ("wikilink", .fwikilink), ("link", .flink),
    ("join", .fjoin), ("split", .fsplit), ("first", .ffirst),
    ("last", .flast), ("unique", .funique), ("list", .flist),
    ("length", .flength), ("default", .fdefault),
    ("json", .fjson), ("parse_json", .fparseJson),
    ("strip_html", .fstripHtml), ("strip_md", .fstripMd)]

/-- The registered filter names. -/
def filterNames : List String := filterTable.map Prod.fst

/-- `FilterProcessor.apply`: look the name up in the registry; an unknown
name logs a warning (not modelled) and returns the value unchanged. -/
def applyFilter (name : String) (v : Value) (args : List String) : Except RenderError Value :=
  match filterTable.lookup name with
  | none => .ok v
  | some id => runFilter id v args

/-! Variable processor (src/core/template/variables.ts) -/

/-- The `variables` record handed to `render`: a string-keyed mapping. -/
abbrev Ctx := List (String × Value)

/-- Record member access `variables[key]` (`undefined` when absent). -/
def ctxGet (vars : Ctx) (key : String) : Value :=
  (vars.lookup key).getD .vundefined

/-- The `?? ""` nullish coalescing the resolvers apply to lookups. -/
def orEmpty : Value → Value
  | .vnull => .vstr ""
  | .vundefined => .vstr ""
  | v => v

/-- Match of `/^(\w+)\[(\d+|\*)\]$/` against a path segment: the key and
either `none` (the `*` wildcard) or the parsed numeric index
(`parseInt`, so leading zeros are fine here). -/
def parsePartIndex (part : List Char) : Option (List Char × Option Nat) :=
  let key := part.takeWhile isRxWord
  let rest := part.dropWhile isRxWord
  if key = [] then none
  else match rest with
  | '[' :: mid =>
    match mid.reverse with
    | ']' :: innerRev =>
      let inner := innerRev.reverse
      if inner = ['*'] then some (key, none)
      else if inner ≠ [] ∧ inner.all Char.isDigit then
        some (key, some (inner.foldl (fun acc c => acc * 10 + (c.toNat - '0'.toNat)) 0))
      else none
    | _ => none
  | _ => none

/-- Loop body of `VariableProcessor.resolveProperty`: walk the dotted
parts, with the `null`/`undefined` guard at the top of each iteration,
the `key[N]`/`key[*]` array handling, and the final `?? ""`. -/
def resolvePropGo : List (List Char) → Value → Value
  | [], current => orEmpty current
  | _ :: _, .vnull => .vstr ""
  | _ :: _, .vundefined => .vstr ""
  | part :: parts, current =>
    match parsePartIndex part with
    | some (key, idxo) =>
      match getProp current (String.mk key), idxo with
      | .varr xs, none => .varr xs  -- "[*]" returns the whole array at once
      | .varr xs, some n => resolvePropGo parts ((xs.get? n).getD .vundefined)
      | other, _ => resolvePropGo parts other  -- not an array: index suffix ignored
    | none => resolvePropGo parts (getProp current (String.mk part))

/-- `VariableProcessor.resolveProperty`: resolve a dotted path against an
object. -/
def resolveProperty (path : String) (obj : Value) : Value :=
  resolvePropGo (splitOnCh '.' path.data) obj

/-- `VariableProcessor.resolveMeta`: `meta_type_name` lookup for the
`name`/`property` shapes, direct metadata lookup otherwise. -/
def resolveMeta (expression : String) (vars : Ctx) : Value :=
  let metadata := ctxGet vars "metadata"
  if ¬ jsTruthy metadata then .vstr ""
  else
    let parts := splitOnCh ':' expression.data
    match parts with
    | ty :: nm :: _ =>
      if ty = "name".data ∨ ty = "property".data then
        orEmpty (getProp metadata (String.mk ("meta_".data ++ ty ++ '_' :: nm)))
      else orEmpty (getProp metadata expression)
    | _ => orEmpty (getProp metadata expression)

/-- `VariableProcessor.resolveSelector`: read the pre-resolved selector
table; note the truthiness (not presence) test on the stored value. -/
def resolveSelector (selector : String) (vars : Ctx) : Value :=
  let selectors := ctxGet vars "_selectors"
  if jsTruthy selectors ∧ jsTruthy (getProp selectors selector) then
    getProp selectors selector
  else .vstr ""

/-- `VariableProcessor.resolveSelectorHtml`: as `resolveSelector`,
against `_selectorsHtml`. -/
def resolveSelectorHtml (selector : String) (vars : Ctx) : Value :=
  let selectorsHtml := ctxGet vars "_selectorsHtml"
  if jsTruthy selectorsHtml ∧ jsTruthy (getProp selectorsHtml selector) then
    getProp selectorsHtml selector
  else .vstr ""

/-- `Object.values` on the schema record. -/
def objValues : Value → List Value
  | .vobj fields => fields.map Prod.snd
  | .varr xs => xs
  | .vstr s => s.data.map fun c => .vstr (String.mk [c])
  | _ => []

/-- The generic-schema search loop: first value whose property-path
resolution is not the empty string, among object-typed schema entries. -/
def schemaSearch (expression : String) : List Value → Value
  | [] => .vstr ""
  | ty :: tys =>
    match ty with
    | .vobj fields =>
      match resolveProperty expression (.vobj fields) with
      | .vstr "" => schemaSearch expression tys
      | v => v
    | .varr xs =>
      match resolveProperty expression (.varr xs) with
      | .vstr "" => schemaSearch expression tys
      | v => v
    | _ => schemaSearch expression tys

/-- `VariableProcessor.resolveSchema`: `@Type:path` lookup or
all-types search. -/
def resolveSchema (expression : String) (vars : Ctx) : Value :=
  let schema := ctxGet vars "_schema"
  if ¬ jsTruthy schema then .vstr ""
  else if startsWithL expression.data ['@'] then
    match indexOfCh expression.data ':' with
    | some i =>
      let ty := (expression.data.take i).drop 1
      let path := expression.data.drop (i + 1)
      let schemaType := getProp schema (String.mk ty)
      if jsTruthy schemaType then
        resolveProperty (String.mk path) schemaType
      else .vstr ""
    | none => .vstr ""
  else schemaSearch expression (objValues schema)

/-- `VariableProcessor.resolve`: the five-way namespace dispatch of the
variable resolver, in source priority order.  A prompt literal (leading
and trailing double quote) returns the original placeholder text
unresolved. -/
def resolve (name : String) (vars : Ctx) : Value :=
  if startsWithL name.data ['"'] ∧ endsWithL name.data ['"'] then
    .vstr (String.mk (lbrace :: lbrace :: name.data ++ [rbrace, rbrace]))
  else if startsWithL name.data "meta:".data then
    resolveMeta (String.mk (name.data.drop 5)) vars
  else if startsWithL name.data "selector:".data then
    resolveSelector (String.mk (name.data.drop 9)) vars
  else if startsWithL name.data "selectorHtml:".data then
    resolveSelectorHtml (String.mk (name.data.drop 13)) vars
  else if startsWithL name.data "schema:".data then
    resolveSchema (String.mk (name.data.drop 7)) vars
  else resolveProperty name (.vobj vars)

/-! Template engine (popup bundle, `TemplateEngine`) -/

/-- `TemplateEngine.unquote`: strip one matching pair of wrapping quotes. -/
def unquote (l : List Char) : List Char :=
  if (startsWithL l ['"'] ∧ endsWithL l ['"']) ∨
      (startsWithL l ['\''] ∧ endsWithL l ['\'']) then
    (l.drop 1).dropLast
  else l

/-- The character scan of `TemplateEngine.parseExpression`: split on `|`
outside quotes and outside parentheses, dropping empty trimmed segments.
State mirrors the source: previous character (for the backslash-escape
test), accumulated segment (reversed), quote state, quote character and
parenthesis depth (an integer: a stray `)` drives it negative). -/
def parseExprGo (splitCh : Char) (unq : Bool) :
    List Char → Option Char → List Char → Bool → Char → Int → List (List Char) →
    List (List Char)
  | [], _, current, _, _, _, parts =>
    if jsTrim current.reverse ≠ [] then parts ++ [finish unq (jsTrim current.reverse)]
    else parts
  | c :: cs, prev, current, inQuotes, quoteChar, depth, parts =>
    if (c = '"' ∨ c = '\'') ∧ prev ≠ some '\\' then
      if ¬ inQuotes then
        parseExprGo splitCh unq cs (some c) (c :: current) true c depth parts
      else if c = quoteChar then
        parseExprGo splitCh unq cs (some c) (c :: current) false quoteChar depth parts
      else
        parseExprGo splitCh unq cs (some c) (c :: current) true quoteChar depth parts
    else if c = '(' ∧ ¬ inQuotes then
      parseExprGo splitCh unq cs (some c) (c :: current) inQuotes quoteChar (depth + 1) parts
    else if c = ')' ∧ ¬ inQuotes then
      parseExprGo splitCh unq cs (some c) (c :: current) inQuotes quoteChar (depth - 1) parts
    else if c = splitCh ∧ ¬ inQuotes ∧ depth = 0 then
      if jsTrim current.reverse ≠ [] then
        parseExprGo splitCh unq cs (some c) [] inQuotes quoteChar depth
          (parts ++ [finish unq (jsTrim current.reverse)])
      else parseExprGo splitCh unq cs (some c) [] inQuotes quoteChar depth parts
    else parseExprGo splitCh unq cs (some c) (c :: current) inQuotes quoteChar depth parts
where
  /-- Argument pieces additionally go through `unquote`. -/
  finish (unq : Bool) (piece : List Char) : List Char :=
    if unq then unquote piece else piece

/-- `TemplateEngine.parseExpression`: the trimmed pipe-segments of a
placeholder body. -/
def parseExpression (expr : List Char) : List (List Char) :=
  parseExprGo '|' false expr none [] false '"' 0 []

/-- `TemplateEngine.parseFilterArgs`: strip one wrapping parenthesis
pair, then split on commas (quote- and parenthesis-aware), trimming and
unquoting each piece. -/
def parseFilterArgs (argsString : List Char) : List String :=
  let a :=
    if startsWithL argsString ['('] ∧ endsWithL argsString [')'] then
      (argsString.drop 1).dropLast
    else argsString
  (parseExprGo ',' true a none [] false '"' 0 []).map String.mk

/-- `TemplateEngine.parseFilter`: name before the first colon, arguments
after it. -/
def parseFilter (filter : List Char) : String × List String :=
  match indexOfCh filter ':' with
  | none => (String.mk filter, [])
  | some i =>
    (String.mk (jsTrim (filter.take i)), parseFilterArgs (jsTrim (filter.drop (i + 1))))

/-- `TemplateEngine.stringify`: `null`/`undefined` to `""`, strings as
themselves, arrays comma-space-joined, objects JSON-serialised, other
scalars via `String(value)`. -/
def stringifyV : Value → List Char
  | .vnull => []
  | .vundefined => []
  | .vstr s => s.data
  | .varr xs => joinWith ", ".data (jsElems xs)
  | .vobj fields => (jsonStringify false 0 (.vobj fields)).getD []
  | v => jsToString v

/-- The filter fold of `processExpression`: apply each filter segment in
chain order, each receiving the previous output. -/
def applyFilters : Value → List (List Char) → Except RenderError Value
  | v, [] => .ok v
  | v, f :: fs =>
    match applyFilter (parseFilter f).1 v (parseFilter f).2 with
    | .error e => .error e
    | .ok v' => applyFilters v' fs

/-- `TemplateEngine.processExpression`: parse the body, resolve the first
segment as the variable, fold the filters, stringify.  An empty segment
list makes `parts[0]` `undefined` and the subsequent
`undefined.startsWith` in `resolve` throws — the `typeError` case. -/
def processExpression (expr : List Char) (vars : Ctx) : Except RenderError (List Char) :=
  match parseExpression expr with
  | [] => .error .typeError
  | vname :: filters =>
    match applyFilters (resolve (String.mk vname) vars) filters with
    | .error e => .error e
    | .ok v => .ok (stringifyV v)

/-- Match of the placeholder regex `/\{\{([^\x7d]+)\}\}/` anchored at the
head of the input: two opening braces, a non-empty maximal run of
non-closing-brace characters, two closing braces.  Returns the body and
the rest after the match. -/
def tryMatchAt : List Char → Option (List Char × List Char)
  | c1 :: c2 :: rest =>
    if c1 = lbrace ∧ c2 = lbrace then
      let body := rest.takeWhile (· ≠ rbrace)
      let after := rest.dropWhile (· ≠ rbrace)
      match body, after with
      | _ :: _, a1 :: a2 :: tail =>
        if a1 = rbrace ∧ a2 = rbrace then some (body, tail) else none
      | _, _ => none
    else none
  | _ => none

/-- The global-replace scan of `TemplateEngine.render`: at each position
try the placeholder regex; on a match substitute
`processExpression(body.trim())`, else copy one character.  Fuel-based
structural recursion; `render` supplies `length + 1`, which the scan
never exhausts (each step consumes at least one character). -/
def renderFuel (vars : Ctx) : Nat → List Char → Except RenderError (List Char)
  | 0, _ => .ok []
  | _ + 1, [] => .ok []
  | fuel + 1, c :: cs =>
    match tryMatchAt (c :: cs) with
    | some (body, tail) =>
      match processExpression (jsTrim body) vars with
      | .error e => .error e
      | .ok replaced =>
        match renderFuel vars fuel tail with
        | .error e => .error e
        | .ok rest => .ok (replaced ++ rest)
    | none =>
      match renderFuel vars fuel cs with
      | .error e => .error e
      | .ok rest => .ok (c :: rest)

/-- `TemplateEngine.render`: replace every `\x7b\x7b...\x7d\x7d` placeholder in
the template by its processed expression. -/
def render (template : String) (vars : Ctx) : Except RenderError String :=
  match renderFuel vars (template.length + 1) template.data with
  | .error e => .error e
  | .ok out => .ok (String.mk out)

/-- Whether the placeholder regex matches anywhere in the list: the
template contains a `\x7b\x7b...\x7d\x7d` placeholder. -/
def hasPlaceholderL : List Char → Bool
  | [] => false
  | c :: cs => (tryMatchAt (c :: cs)).isSome || hasPlaceholderL cs

/-- Whether a template contains a placeholder. -/
def hasPlaceholder (t : String) : Bool := hasPlaceholderL t.data

/-- Every failing filter application is the `replace` filter hitting an
invalid regular-expression pattern: all other built-ins always return a
value. -/
theorem runFilter_error_regex (id : FilterId) (v : Value) (args : List String)
    (e : RenderError) (h : runFilter id v args = .error e) :
    ∃ p, e = .regexSyntax p ∧ regexCompile p = none := by
  cases id
  case freplace =>
    simp only [runFilter] at h
    split at h
    next hcomp =>
      injection h with h2
      exact ⟨_, h2.symm, hcomp⟩
    next r hcomp => exact Except.noConfusion h
  all_goals
    simp only [runFilter] at h
    repeat' split at h
    all_goals exact Except.noConfusion h

/-- Lifting the filter error characterization through the registry
lookup (an unknown name returns the value unchanged, so never fails). -/
theorem applyFilter_error_regex (name : String) (v : Value) (args : List String)
    (e : RenderError) (h : applyFilter name v args = .error e) :
    ∃ p, e = .regexSyntax p ∧ regexCompile p = none := by
  unfold applyFilter at h
  split at h
  · exact Except.noConfusion h
  · exact runFilter_error_regex _ _ _ _ h

/-- Lifting the filter error characterization through the filter fold. -/
theorem applyFilters_error_regex (fs : List (List Char)) (v : Value)
    (e : RenderError) (h : applyFilters v fs = .error e) :
    ∃ p, e = .regexSyntax p ∧ regexCompile p = none := by
  induction fs generalizing v with
  | nil => exact Except.noConfusion h
  | cons f fs ih =>
    simp only [applyFilters] at h
    split at h
    next e1 happ =>
      injection h with h2
      exact h2 ▸ applyFilter_error_regex _ _ _ _ happ
    next v1 happ => exact ih v1 h

/-- Every failing placeholder is either the empty-segment `TypeError` or
a `replace`-filter `SyntaxError`. -/
theorem processExpression_error (expr : List Char) (vars : Ctx) (e : RenderError)
    (h : processExpression expr vars = .error e) :
    e = .typeError ∨ ∃ p, e = .regexSyntax p ∧ regexCompile p = none := by
  unfold processExpression at h
  split at h
  · injection h with h2
    exact Or.inl h2.symm
  · split at h
    next e1 happ =>
      injection h with h2
      exact Or.inr (h2 ▸ applyFilters_error_regex _ _ _ happ)
    next v1 happ => exact Except.noConfusion h

/-- Lifting the placeholder error characterization through the template
scan. -/
theorem renderFuel_error (vars : Ctx) :
    ∀ (fuel : Nat) (l : List Char) (e : RenderError),
      renderFuel vars fuel l = .error e →
      e = .typeError ∨ ∃ p, e = .regexSyntax p ∧ regexCompile p = none := by
  intro fuel
  induction fuel with
  | zero => intro l e h; exact Except.noConfusion h
  | succ n ih =>
    intro l e h
    match l with
    | [] => exact Except.noConfusion h
    | c :: cs =>
      simp only [renderFuel] at h
      split at h
      next body tail hmatch =>
        split at h
        next e1 hexp =>
          injection h with h2
          exact h2 ▸ processExpression_error _ _ _ hexp
        next rep hexp =>
          split at h
          next e2 hrec =>
            injection h with h2
            exact h2 ▸ ih tail e2 hrec
          next rest hrec => exact Except.noConfusion h
      next hmatch =>
        split at h
        next e2 hrec =>
          injection h with h2
          exact h2 ▸ ih cs e2 hrec
        next rest hrec => exact Except.noConfusion h

/-- C1 counterexample: a well-shaped template and context on which
`render` throws.  The placeholder body of `"\x7b\x7b \x7d\x7d"` is whitespace
only, `parseExpression` returns no segments, `parts[0]` is `undefined`,
and `resolve` throws a `TypeError` — contradicting "returns a string
without throwing ... empty or whitespace-only placeholder bodies". -/
theorem render_throws_on_blank_placeholder :
    render "\x7b\x7b \x7d\x7d" [] = .error .typeError := rfl

/-- C1 as amended: `render` can throw on well-shaped inputs, but in
exactly two ways — the `TypeError` from a placeholder body with no
non-empty segment, and the `SyntaxError` from the `replace` filter when
its search argument does not compile as a regular expression.  Every
failure of `render` is one of these. -/
theorem render_error_characterization (t : String) (vars : Ctx) (e : RenderError)
    (h : render t vars = .error e) :
    e = .typeError ∨ ∃ p, e = .regexSyntax p ∧ regexCompile p = none := by
  unfold render at h
  split at h
  next e1 hfuel =>
    injection h with h2
    exact h2 ▸ renderFuel_error vars _ _ _ hfuel
  next out hfuel => exact Except.noConfusion h

/-- Closed witness for the amended C1 at the blank placeholder. -/
theorem render_error_characterization_witness :
    render "\x7b\x7b \x7d\x7d" [] = .error .typeError ∧
    (RenderError.typeError = .typeError ∨
      ∃ p, RenderError.typeError = .regexSyntax p ∧ regexCompile p = none) :=
  ⟨rfl, render_error_characterization "\x7b\x7b \x7d\x7d" [] .typeError rfl⟩

end OWC

namespace OWC

/-! Supporting lemmas -/

/-- On a placeholder-free region the scan copies its input verbatim. -/
theorem renderFuel_id_of_no_placeholder (vars : Ctx) :
    ∀ (fuel : Nat) (l : List Char), l.length < fuel → hasPlaceholderL l = false →
      renderFuel vars fuel l = .ok l := by
  intro fuel
  induction fuel with
  | zero => intro l h _; omega
  | succ n ih =>
    intro l hlen hnp
    match l with
    | [] => rfl
    | c :: cs =>
      have hmatch : tryMatchAt (c :: cs) = none := by
        simp only [hasPlaceholderL, Bool.or_eq_false_iff] at hnp
        rcases hnp with ⟨h1, _⟩
        exact Option.not_isSome_iff_eq_none.mp (by simp [h1])
      have hrest : hasPlaceholderL cs = false := by
        simp only [hasPlaceholderL, Bool.or_eq_false_iff] at hnp
        exact hnp.2
      have hlen' : cs.length < n := by
        simp only [List.length_cons] at hlen; omega
      simp only [renderFuel, hmatch, ih cs hlen' hrest]

/-- A generic lookup fact: a key absent from the key column is not found. -/
theorem lookup_eq_none_of_not_mem {α β : Type} [BEq α] [LawfulBEq α]
    (l : List (α × β)) (k : α) (h : k ∉ l.map Prod.fst) : l.lookup k = none := by
  induction l with
  | nil => rfl
  | cons p ps ih =>
    simp only [List.map_cons, List.mem_cons] at h
    push_neg at h
    simp only [List.lookup]
    have : (k == p.1) = false := by
      simp [h.1]
    simp [this, ih h.2]

/-- The explicit filter fold agrees with the monadic left fold, making
the chain-order statement explicit. -/
theorem applyFilters_eq_foldlM (fs : List (List Char)) (v : Value) :
    applyFilters v fs =
      fs.foldlM (fun acc f => applyFilter (parseFilter f).1 acc (parseFilter f).2) v := by
  induction fs generalizing v with
  | nil => rfl
  | cons f fs ih =>
    simp only [applyFilters, List.foldlM_cons]
    match h : applyFilter (parseFilter f).1 v (parseFilter f).2 with
    | .error e => simp [h, Bind.bind, Except.bind]
    | .ok v' => simpa [h, Bind.bind, Except.bind] using ih v'

/-! Claim theorems -/

/-- C9: for every template that contains no placeholder and every
context, `render` is the identity: `render(t, ctx) = t`. -/
theorem render_identity_without_placeholders (t : String) (vars : Ctx)
    (h : hasPlaceholder t = false) : render t vars = .ok t := by
  unfold render
  have : renderFuel vars (t.length + 1) t.data = .ok t.data :=
    renderFuel_id_of_no_placeholder vars (t.length + 1) t.data (Nat.lt_succ_self _) h
  simp [this]

/-- Closed witness for C9 at the concrete template `"hello world"`. -/
theorem render_identity_without_placeholders_witness :
    hasPlaceholder "hello world" = false ∧ render "hello world" [] = .ok "hello world" :=
  ⟨rfl, render_identity_without_placeholders "hello world" [] rfl⟩

/-- C10: a prompt-literal placeholder with a filter chain has the filters
applied to the returned placeholder text itself before substitution: for
every context, `render("\x7b\x7b\"x\"|upper\x7d\x7d", ctx) = "\x7b\x7b\"X\"\x7d\x7d"` — the output
no longer contains the original placeholder verbatim. -/
theorem prompt_literal_filters_apply (vars : Ctx) :
    render "\x7b\x7b\"x\"|upper\x7d\x7d" vars = .ok "\x7b\x7b\"X\"\x7d\x7d" := rfl

/-- C4: a placeholder body that begins and ends with a double quote is a
prompt literal: `resolve` returns the original `\x7b\x7b<name>\x7d\x7d` text for
every context without any local resolution, so
`render("\x7b\x7b\"summarize this\"\x7d\x7d", ctx)` returns the placeholder
unchanged. -/
theorem prompt_literal_preserved :
    (∀ (name : String) (vars : Ctx),
      startsWithL name.data ['"'] = true → endsWithL name.data ['"'] = true →
        resolve name vars = .vstr ("\x7b\x7b" ++ name ++ "\x7d\x7d")) ∧
    (∀ vars : Ctx,
      render "\x7b\x7b\"summarize this\"\x7d\x7d" vars = .ok "\x7b\x7b\"summarize this\"\x7d\x7d") := by
  constructor
  · intro name vars h1 h2
    have : ("\x7b\x7b" ++ name ++ "\x7d\x7d").data
        = lbrace :: lbrace :: name.data ++ [rbrace, rbrace] := by
      simp [String.data_append, lbrace, rbrace]
    simp only [resolve, h1, h2, and_self, if_true]
    exact congrArg Value.vstr (String.ext this.symm)
  · intro vars; rfl

/-- Closed witness for C4 at the prompt literal `"summarize this"`. -/
theorem prompt_literal_preserved_witness :
    startsWithL "\"summarize this\"".data ['"'] = true ∧
    endsWithL "\"summarize this\"".data ['"'] = true ∧
    resolve "\"summarize this\"" [] = .vstr "\x7b\x7b\"summarize this\"\x7d\x7d" :=
  ⟨rfl, by decide, prompt_literal_preserved.1 "\"summarize this\"" [] rfl (by decide)⟩

/-- C8: a filter name not present in the registry is a no-op — `apply`
returns the value unchanged (the source also logs a non-fatal warning) —
so `render("\x7b\x7ba|nosuchfilter\x7d\x7d", \x7ba: "z"\x7d) = "z"`. -/
theorem unknown_filter_noop :
    (∀ (name : String) (v : Value) (args : List String),
      name ∉ filterNames → applyFilter name v args = .ok v) ∧
    render "\x7b\x7ba|nosuchfilter\x7d\x7d" [("a", .vstr "z")] = .ok "z" := by
  constructor
  · intro name v args h
    have : filterTable.lookup name = none :=
      lookup_eq_none_of_not_mem filterTable name h
    simp [applyFilter, this]
  · rfl

/-- Closed witness for C8 at the unknown name `"nosuchfilter"`. -/
theorem unknown_filter_noop_witness :
    "nosuchfilter" ∉ filterNames ∧
    applyFilter "nosuchfilter" (.vstr "z") [] = .ok (.vstr "z") :=
  ⟨by decide, unknown_filter_noop.1 "nosuchfilter" (.vstr "z") [] (by decide)⟩

/-- C2: when a placeholder body parses to a variable segment followed by
filter segments, the substituted text is the stringification of the
left-to-right monadic fold of the filter chain over the resolved
variable — each filter receives the previous filter's output — and in
particular `render("\x7b\x7ba|upper|trim\x7d\x7d", \x7ba: " hi "\x7d) = "HI"`. -/
theorem filter_chain_folds_left :
    (∀ (body : List Char) (vars : Ctx) (v : List Char) (fs : List (List Char)),
      parseExpression body = v :: fs →
        processExpression body vars =
          Except.map stringifyV
            (fs.foldlM (fun acc f => applyFilter (parseFilter f).1 acc (parseFilter f).2)
              (resolve (String.mk v) vars))) ∧
    render "\x7b\x7ba|upper|trim\x7d\x7d" [("a", .vstr " hi ")] = .ok "HI" := by
  constructor
  · intro body vars v fs h
    simp only [processExpression, h, ← applyFilters_eq_foldlM]
    match happ : applyFilters (resolve (String.mk v) vars) fs with
    | .error e => simp [Except.map]
    | .ok v' => simp [Except.map]
  · rfl

/-- Closed witness for C2 at the body `a|upper|trim`. -/
theorem filter_chain_folds_left_witness :
    parseExpression "a|upper|trim".data = ["a".data, "upper".data, "trim".data] ∧
    processExpression "a|upper|trim".data [("a", .vstr " hi ")] =
      Except.map stringifyV
        (["upper".data, "trim".data].foldlM
          (fun acc f => applyFilter (parseFilter f).1 acc (parseFilter f).2)
          (resolve (String.mk "a".data) [("a", .vstr " hi ")])) :=
  ⟨rfl, filter_chain_folds_left.1 "a|upper|trim".data [("a", .vstr " hi ")]
    "a".data ["upper".data, "trim".data] rfl⟩

/-- C3 (code bug record): on the spec's test template the code returns
the input unchanged, not `"1;2;3"`.  `parseFilterArgs` splits only on
commas outside quotes, so the full `",":";"` text is one argument; the
outer-quote strip then hands `replace` the search pattern `,":";`, which
does not occur in the value. -/
theorem replace_colon_args_mis_split :
    parseFilter "replace:\",\":\";\"".data = ("replace", [",\":\";"]) ∧
    render "\x7b\x7ba|replace:\",\":\";\"\x7d\x7d" [("a", .vstr "1,2,3")] = .ok "1,2,3" :=
  ⟨rfl, rfl⟩

/-- C5 (code bug record): `resolveMeta` splits the remainder on `:` and
keeps only the first two parts, so for the tag name `og:title` (metadata
key `meta_property_og:title` present with value `"OG"`) the code instead
reads the key `meta_property_og` and yields its value `"Y"`. -/
theorem meta_tag_colon_dropped :
    resolve "meta:property:og:title"
      [("metadata",
        .vobj [("meta_property_og:title", .vstr "OG"), ("meta_property_og", .vstr "Y")])]
      = .vstr "Y" ∧
    render "\x7b\x7bmeta:property:og:title\x7d\x7d"
      [("metadata",
        .vobj [("meta_property_og:title", .vstr "OG"), ("meta_property_og", .vstr "Y")])]
      = .ok "Y" :=
  ⟨rfl, rfl⟩

/-- Namespace dispatch on a `selector:`-prefixed name reduces to the
selector resolver. -/
theorem resolve_selector_dispatch (s : String) (vars : Ctx) :
    resolve ("selector:" ++ s) vars = resolveSelector s vars := by
  cases s with
  | mk d =>
    have b1 : startsWithL ("selector:" ++ String.mk d).data ['"'] = false := rfl
    have b2 : startsWithL ("selector:" ++ String.mk d).data "meta:".data = false := rfl
    have b3 : startsWithL ("selector:" ++ String.mk d).data "selector:".data = true := rfl
    have hdrop : String.mk (List.drop 9 ("selector:" ++ String.mk d).data) = String.mk d := rfl
    simp only [resolve, b1, b2, b3, Bool.false_eq_true, false_and, if_false, if_true,
      ite_false, ite_true, hdrop]

/-- Namespace dispatch on a `selectorHtml:`-prefixed name reduces to the
selector-HTML resolver. -/
theorem resolve_selectorHtml_dispatch (s : String) (vars : Ctx) :
    resolve ("selectorHtml:" ++ s) vars = resolveSelectorHtml s vars := by
  cases s with
  | mk d =>
    have b1 : startsWithL ("selectorHtml:" ++ String.mk d).data ['"'] = false := rfl
    have b2 : startsWithL ("selectorHtml:" ++ String.mk d).data "meta:".data = false := rfl
    have b3 : startsWithL ("selectorHtml:" ++ String.mk d).data "selector:".data = false := rfl
    have b4 : startsWithL ("selectorHtml:" ++ String.mk d).data "selectorHtml:".data = true := rfl
    have hdrop : String.mk (List.drop 13 ("selectorHtml:" ++ String.mk d).data)
        = String.mk d := rfl
    simp only [resolve, b1, b2, b3, b4, Bool.false_eq_true, false_and, if_false, if_true,
      ite_false, ite_true, hdrop]

/-- C6 counterexample: with `_selectors = \x7bh1: false\x7d` the key `"h1"` is
present with stored value `false`, yet resolution yields `""`, not the
stored value — the code tests truthiness, not presence. -/
theorem selector_falsy_counterexample :
    getProp (ctxGet [("_selectors", .vobj [("h1", .vbool false)])] "_selectors") "h1"
      = .vbool false ∧
    resolve "selector:h1" [("_selectors", .vobj [("h1", .vbool false)])] = .vstr "" ∧
    Value.vstr "" ≠ Value.vbool false :=
  ⟨rfl, rfl, fun h => nomatch h⟩

/-- C6 as amended: `selector:`/`selectorHtml:` resolution returns the
stored value only when the selector table and the stored value are both
truthy; a missing key or a falsy stored value (and a falsy or missing
table) yield the empty string. -/
theorem selector_truthy_resolution (s : String) (vars : Ctx) :
    (jsTruthy (ctxGet vars "_selectors") = true →
      jsTruthy (getProp (ctxGet vars "_selectors") s) = true →
      resolve ("selector:" ++ s) vars = getProp (ctxGet vars "_selectors") s) ∧
    (¬ (jsTruthy (ctxGet vars "_selectors") = true ∧
        jsTruthy (getProp (ctxGet vars "_selectors") s) = true) →
      resolve ("selector:" ++ s) vars = .vstr "") ∧
    (jsTruthy (ctxGet vars "_selectorsHtml") = true →
      jsTruthy (getProp (ctxGet vars "_selectorsHtml") s) = true →
      resolve ("selectorHtml:" ++ s) vars = getProp (ctxGet vars "_selectorsHtml") s) ∧
    (¬ (jsTruthy (ctxGet vars "_selectorsHtml") = true ∧
        jsTruthy (getProp (ctxGet vars "_selectorsHtml") s) = true) →
      resolve ("selectorHtml:" ++ s) vars = .vstr "") := by
  refine ⟨?_, ?_, ?_, ?_⟩
  · intro h1 h2
    rw [resolve_selector_dispatch]
    simp [resolveSelector, h1, h2]
  · intro h
    rw [resolve_selector_dispatch]
    simp only [resolveSelector]
    rw [if_neg h]
  · intro h1 h2
    rw [resolve_selectorHtml_dispatch]
    simp [resolveSelectorHtml, h1, h2]
  · intro h
    rw [resolve_selectorHtml_dispatch]
    simp only [resolveSelectorHtml]
    rw [if_neg h]

/-- Closed witness for the amended C6: a truthy stored value is returned
as stored; a falsy one yields the empty string. -/
theorem selector_truthy_resolution_witness :
    (jsTruthy (ctxGet [("_selectors", .vobj [("h1", .vstr "T")])] "_selectors") = true ∧
      jsTruthy (getProp (ctxGet [("_selectors", .vobj [("h1", .vstr "T")])] "_selectors") "h1")
        = true ∧
      resolve ("selector:" ++ "h1") [("_selectors", .vobj [("h1", .vstr "T")])]
        = getProp (ctxGet [("_selectors", .vobj [("h1", .vstr "T")])] "_selectors") "h1") ∧
    (¬ (jsTruthy (ctxGet [("_selectors", .vobj [("h1", .vbool false)])] "_selectors") = true ∧
        jsTruthy (getProp (ctxGet [("_selectors", .vobj [("h1", .vbool false)])] "_selectors")
          "h1") = true) ∧
      resolve ("selector:" ++ "h1") [("_selectors", .vobj [("h1", .vbool false)])] = .vstr "") := by
  refine ⟨⟨rfl, rfl, ?_⟩, ?_, ?_⟩
  · exact (selector_truthy_resolution "h1" [("_selectors", .vobj [("h1", .vstr "T")])]).1 rfl rfl
  · intro h
    exact absurd h.2 (by decide)
  · exact (selector_truthy_resolution "h1" [("_selectors", .vobj [("h1", .vbool false)])]).2.1
      (fun h => absurd h.2 (by decide))

/-- C7 counterexample: `capitalize` does not leave the characters after
the first unchanged — on `"aB"` it yields `"Ab"`, not `"AB"`. -/
theorem capitalize_lowercases_tail_counterexample :
    runFilter .fcapitalize (.vstr "aB") [] = .ok (.vstr "Ab") ∧ ("Ab" : String) ≠ "AB" :=
  ⟨rfl, by decide⟩

/-- C7 as amended: `capitalize` upper-cases the first character and
lower-cases every remaining character
(`charAt(0).toUpperCase() + slice(1).toLowerCase()`). -/
theorem capitalize_first_upper_rest_lower :
    (∀ (v : Value) (args : List String) (c : Char) (cs : List Char),
      jsToString v = c :: cs →
        runFilter .fcapitalize v args = .ok (.vstr (String.mk (Char.toUpper c :: toLowerL cs)))) ∧
    (∀ (v : Value) (args : List String), jsToString v = [] →
      runFilter .fcapitalize v args = .ok (.vstr "")) := by
  constructor
  · intro v args c cs h
    simp [runFilter, h, capitalizeL]
  · intro v args h
    simp [runFilter, h, capitalizeL]

/-- Closed witness for the amended C7 at `"aB"`. -/
theorem capitalize_first_upper_rest_lower_witness :
    jsToString (.vstr "aB") = 'a' :: ['B'] ∧
    runFilter .fcapitalize (.vstr "aB") []
      = .ok (.vstr (String.mk (Char.toUpper 'a' :: toLowerL ['B']))) :=
  ⟨rfl, capitalize_first_upper_rest_lower.1 (.vstr "aB") [] 'a' ['B'] rfl⟩

end OWC
